import Mathlib

/-!
# Admission webhook for pods: a verification development

Shallow embedding of `main.go` (package `main`) of the pod admission webhook:
the two HTTP handlers `ServeValidatePods` and `ServeMutatePods`, the helpers
`extractAdmission`, `checkForPod`, `response` and `responsePatch`, and the Go
runtime behaviour they rely on (map reads and writes, nil maps).

Library code that the program calls (`encoding/json`, `net/http`,
`github.com/wI2L/jsondiff`, the Kubernetes API types) is not part of the
program text. The JSON decoders and encoders are taken as parameters
(`Env`); the structural diff and the RFC 6902 patch application are modelled
as described at their definitions. The logging calls (`log.Println`,
`fmt.Println`) do not touch the response and are left out.
-/

set_option autoImplicit false

/-! ## Go maps with string keys -/

namespace GoMap

/-- Entries of a Go map with string keys, as an association list. The first
entry for a key is the one that counts. -/
abbrev Entries (α : Type) := List (String × α)

/-- Value stored under key `k`, if any. -/
def lookup {α : Type} (k : String) : Entries α → Option α
  | [] => none
  | (k', v) :: t => if k' = k then some v else lookup k t

/-- Store `v` under key `k`: overwrite the entry when the key is present, add a
new entry otherwise (Go: `m[k] = v` on a non-nil map). -/
def set {α : Type} (k : String) (v : α) : Entries α → Entries α
  | [] => [(k, v)]
  | (k', v') :: t => if k' = k then (k, v) :: t else (k', v') :: set k v t

/-- Remove every entry stored under key `k`. -/
def erase {α : Type} (k : String) : Entries α → Entries α
  | [] => []
  | (k', v') :: t => if k' = k then erase k t else (k', v') :: erase k t

/-- Keys of the entries, in order. -/
def keys {α : Type} (m : Entries α) : List String := m.map Prod.fst

end GoMap

/-- Byte sequences (`[]byte`), kept as strings. -/
abbrev Bytes := String

/-- A Go `map[string]string` value that is not nil. -/
abbrev Labels := GoMap.Entries String

/-- Go `v := m[k]` on a `map[string]string` that may be nil: the zero value
`""` when the map is nil or the key is missing. -/
def mapIndex (m : Option Labels) (k : String) : String :=
  match m with
  | none => ""
  | some l => (GoMap.lookup k l).getD ""

/-- Go `v, exists := m[k]` on a `map[string]string` that may be nil. -/
def mapIndexOk (m : Option Labels) (k : String) : String × Bool :=
  match m with
  | none => ("", false)
  | some l =>
    match GoMap.lookup k l with
    | some v => (v, true)
    | none => ("", false)

/-- Go `m[k] = v` on a `map[string]string` that may be nil. Writing to a nil
map is a run-time panic; the error carries the panic message. -/
def mapAssign (m : Option Labels) (k v : String) : Except String (Option Labels) :=
  match m with
  | none => .error "assignment to entry in nil map"
  | some l => .ok (some (GoMap.set k v l))

/-! ## JSON values, structural diff and patch application -/

/-- JSON values. Objects are association lists from member names to values. -/
inductive Json where
  | null
  | bool (b : Bool)
  | num (n : Int)
  | str (s : String)
  | arr (items : List Json)
  | obj (fields : List (String × Json))

mutual
/-- Deep value equality of two JSON values. -/
def Json.beq : Json → Json → Bool
  | .null, .null => true
  | .bool a, .bool b => a == b
  | .num a, .num b => a == b
  | .str a, .str b => a == b
  | .arr a, .arr b => Json.beqItems a b
  | .obj a, .obj b => Json.beqFields a b
  | _, _ => false
/-- Deep value equality of two lists of JSON values. -/
def Json.beqItems : List Json → List Json → Bool
  | [], [] => true
  | a :: s, b :: t => Json.beq a b && Json.beqItems s t
  | _, _ => false
/-- Deep value equality of two lists of object members. -/
def Json.beqFields : List (String × Json) → List (String × Json) → Bool
  | [], [] => true
  | (k, a) :: s, (l, b) :: t => k == l && Json.beq a b && Json.beqFields s t
  | _, _ => false
end

/-- The three operation kinds of a JSON Patch that the diff produces. -/
inductive OpKind where
  | add
  | replace
  | remove
  deriving DecidableEq, Repr

/-- One JSON Patch operation. The path is the list of reference tokens of the
JSON Pointer (unescaped); `value` is absent for `remove`. -/
structure Operation where
  op : OpKind
  path : List String
  value : Option Json

/-- A JSON Patch document: an ordered sequence of operations. -/
abbrev Patch := List Operation

/-- Member names occurring in either object, each once. -/
def Json.unionKeys (a b : List (String × Json)) : List String :=
  (GoMap.keys a ++ GoMap.keys b).dedup

/-- Modelled from the spec: `jsondiff.Compare` on two decoded JSON documents
(package `github.com/wI2L/jsondiff`, a dependency whose text is not part of
the program). The spec describes the patch as computed by structural
comparison of the two snapshots, by value-equality traversal, using
add/replace/remove operations. Equal values give no operation; two objects
are compared member by member (a member on both sides is compared in place,
a member only in the source is removed, a member only in the target is
added); any other pair of different values gives one `replace` of the whole
value at that location. -/
def Json.diff (ptr : List String) (src tgt : Json) : Patch :=
  if Json.beq src tgt then []
  else
    match src, tgt with
    | .obj a, .obj b =>
      (Json.unionKeys a b).foldr (fun k acc =>
        (match _h : GoMap.lookup k a, GoMap.lookup k b with
          | some v, some w => Json.diff (ptr ++ [k]) v w
          | some _, none => [⟨.remove, ptr ++ [k], none⟩]
          | none, some w => [⟨.add, ptr ++ [k], some w⟩]
          | none, none => []) ++ acc) []
    | _, t => [⟨.replace, ptr, some t⟩]
termination_by sizeOf src
decreasing_by
  have key : ∀ (l : List (String × Json)) (k : String) (v : Json),
      GoMap.lookup k l = some v → sizeOf v < sizeOf l := by
    intro l
    induction l with
    | nil => intro k v hl; simp [GoMap.lookup] at hl
    | cons x t ih =>
      intro k v hl
      obtain ⟨k', v'⟩ := x
      simp only [GoMap.lookup] at hl
      split at hl
      · cases hl
        simp
        omega
      · have := ih k v hl
        simp
        omega
  have := key a k v (by assumption)
  simp
  omega

/-- Array index named by a reference token: decimal digits without a leading
zero. -/
def Json.parseIndex (k : String) : Option Nat :=
  if k ≠ "" ∧ k.isNat ∧ (k = "0" ∨ ¬ k.startsWith "0") then k.toNat? else none

/-- The value directly below `doc` that the reference token `k` names. -/
def Json.child (k : String) : Json → Option Json
  | .obj m => GoMap.lookup k m
  | .arr l => (Json.parseIndex k).bind fun i => l.get? i
  | _ => none

/-- Overwrite the existing value that token `k` names directly below `doc`. -/
def Json.setChild (k : String) (c : Json) : Json → Option Json
  | .obj m => if (GoMap.lookup k m).isSome then some (.obj (GoMap.set k c m)) else none
  | .arr l =>
    (Json.parseIndex k).bind fun i => if i < l.length then some (.arr (l.set i c)) else none
  | _ => none

/-- RFC 6902 `add` at the last token of a path: an object member is added
or, when it exists, replaced; an array element is inserted before index `k`,
or appended for the token `-`. -/
def Json.addMember (k : String) (v : Json) : Json → Option Json
  | .obj m => some (.obj (GoMap.set k v m))
  | .arr l =>
    if k = "-" then some (.arr (l ++ [v]))
    else (Json.parseIndex k).bind fun i =>
      if i ≤ l.length then some (.arr (l.take i ++ v :: l.drop i)) else none
  | _ => none

/-- RFC 6902 `remove` at the last token of a path: the target must exist. -/
def Json.removeMember (k : String) : Json → Option Json
  | .obj m => if (GoMap.lookup k m).isSome then some (.obj (GoMap.erase k m)) else none
  | .arr l =>
    (Json.parseIndex k).bind fun i => if i < l.length then some (.arr (l.eraseIdx i)) else none
  | _ => none

/-- RFC 6902 `add` of `v` at `path` in `doc`. The empty path replaces the
whole document; every value on the way to the target must exist. -/
def Json.addAt : List String → Json → Json → Option Json
  | [], v, _ => some v
  | k :: ks, v, doc =>
    match ks with
    | [] => Json.addMember k v doc
    | _ :: _ =>
      (Json.child k doc).bind fun c =>
        (Json.addAt ks v c).bind fun c' => Json.setChild k c' doc

/-- RFC 6902 `replace` of the value at `path` in `doc` by `v`: the target
must exist. -/
def Json.replaceAt : List String → Json → Json → Option Json
  | [], v, _ => some v
  | k :: ks, v, doc =>
    (Json.child k doc).bind fun c =>
      (Json.replaceAt ks v c).bind fun c' => Json.setChild k c' doc

/-- RFC 6902 `remove` of the value at `path` in `doc`: the target must exist
and is not the whole document. -/
def Json.removeAt : List String → Json → Option Json
  | [], _ => none
  | k :: ks, doc =>
    match ks with
    | [] => Json.removeMember k doc
    | _ :: _ =>
      (Json.child k doc).bind fun c =>
        (Json.removeAt ks c).bind fun c' => Json.setChild k c' doc

/-- Apply one operation to a document (RFC 6902); `none` is an error. -/
def Json.applyOp (o : Operation) (doc : Json) : Option Json :=
  match o.op, o.value with
  | .add, some v => Json.addAt o.path v doc
  | .replace, some v => Json.replaceAt o.path v doc
  | .remove, _ => Json.removeAt o.path doc
  | _, none => none

/-- Apply the operations of a patch in order (RFC 6902); the first failing
operation fails the whole patch. -/
def Json.applyPatch : Patch → Json → Option Json
  | [], doc => some doc
  | o :: os, doc => (Json.applyOp o doc).bind (Json.applyPatch os)

/-! ## Kubernetes API objects (the fields the program reads or writes) -/

/-- Modelled from the spec: the target object (`corev1.Pod`, declared in
`k8s.io/api`): its `metadata.labels` map, which is nil when absent, plus the
remaining fields, which the policy does not inspect: the other members of
`metadata` and the other top-level members (kind, apiVersion, spec, status),
both by JSON name. -/
structure Pod where
  labels : Option Labels
  metaRest : List (String × Json)
  rest : List (String × Json)

/-- Go `(*Pod).DeepCopy`: an independent copy with the same contents. -/
def Pod.DeepCopy (p : Pod) : Pod := p

/-- JSON object for a label map: every value is a JSON string. -/
def labelsJson (l : Labels) : List (String × Json) :=
  l.map fun kv => (kv.1, Json.str kv.2)

/-- Members of the `metadata` object of a serialized pod. The member `labels`
is tagged `omitempty`: it is written only for a map with at least one
entry. -/
def Pod.metaFields (p : Pod) : List (String × Json) :=
  match p.labels with
  | some (kv :: l) =>
    GoMap.set "labels" (Json.obj (labelsJson (kv :: l))) (GoMap.erase "labels" p.metaRest)
  | _ => GoMap.erase "labels" p.metaRest

/-- Modelled from the spec: the JSON form of a pod (`json.Marshal` on
`corev1.Pod`, whose declaration is not part of the program): an object with
the member `metadata`, itself an object holding `labels` among its other
members, next to the remaining top-level members, which are carried over
unchanged. -/
def Pod.toJson (p : Pod) : Json :=
  Json.obj (GoMap.set "metadata" (Json.obj p.metaFields) p.rest)

/-- Modelled from the spec: `jsondiff.Compare(p, pMod)`, the structural diff
of the two serialized pods, from the document root. The library reports an
error when an input cannot be serialized; pods always serialize. -/
def jsondiffCompare (p pMod : Pod) : Except String Patch :=
  .ok (Json.diff [] p.toJson pMod.toJson)

/-- The `metav1.GroupVersionKind` of an admission request. -/
structure GroupVersionKind where
  group : String
  version : String
  kind : String

/-- A `runtime.RawExtension`: the serialized object under review. -/
structure RawExtension where
  raw : Bytes

/-- Modelled from the spec: the admission request
(`admissionv1.AdmissionRequest`, declared in `k8s.io/api`), with the fields
the program reads: uid, kind and the raw object. -/
structure AdmissionRequest where
  uid : String
  kind : GroupVersionKind
  object : RawExtension

/-- A `metav1.Status` as built by `response`. -/
structure Status where
  code : Int
  message : String

/-- Modelled from the spec: the admission response
(`admissionv1.AdmissionResponse`, declared in `k8s.io/api`), with the fields
the program writes; pointer and slice fields are absent when nil. -/
structure AdmissionResponse where
  uid : String
  allowed : Bool
  result : Option Status
  patchType : Option String
  patch : Option Bytes

/-- The `metav1.TypeMeta` of a review. -/
structure TypeMeta where
  kind : String
  apiVersion : String

/-- An `admissionv1.AdmissionReview`: request and response are pointers and
may be nil. -/
structure AdmissionReview where
  typeMeta : TypeMeta
  request : Option AdmissionRequest
  response : Option AdmissionResponse

/-- An incoming `http.Request`: its headers, one value per canonical name, and
the bytes of its body. -/
structure Request where
  header : List (String × String)
  body : Bytes

/-- Go `r.Header.Get(name)`: the value of the header, `""` when it is not
set. -/
def Request.headerGet (r : Request) (name : String) : String :=
  (GoMap.lookup name r.header).getD ""

/-- The library functions the program calls whose results depend on byte-level
JSON syntax: `json.Unmarshal` into a review and into a pod, `json.Marshal` of
the patch and of the review, and the `%q` verb of `fmt.Errorf`. A decoding or
encoding error carries its message. -/
structure Env where
  unmarshalReview : Bytes → Except String AdmissionReview
  unmarshalPod : Bytes → Except String Pod
  marshalPatch : Patch → Except String Bytes
  marshalReview : AdmissionReview → Except String Bytes
  quote : String → String

/-- What a handler leaves on the `http.ResponseWriter`: a call of
`http.Error(w, message, code)` (a plain-text body with the given status
code), or the header `Content-Type: application/json` followed by a written
body with no explicit status (so 200), or a run-time panic before anything
was written. -/
inductive HttpResponse where
  | httpError (message : String) (code : Nat)
  | json (body : Bytes)
  | panic (message : String)

/-- HTTP status code sent to the client, when a response was written. -/
def HttpResponse.statusCode : HttpResponse → Option Nat
  | .httpError _ code => some code
  | .json _ => some 200
  | .panic _ => none

/-- Go `http.StatusBadRequest`. -/
def StatusBadRequest : Nat := 400
/-- Go `http.StatusForbidden`. -/
def StatusForbidden : Nat := 403
/-- Go `http.StatusAccepted`. -/
def StatusAccepted : Nat := 202
/-- Go `http.StatusInternalServerError`. -/
def StatusInternalServerError : Nat := 500
/-- Go `admissionv1.PatchTypeJSONPatch`. -/
def PatchTypeJSONPatch : String := "JSONPatch"

/-- Result of a function returning `(*T, error)` that may also panic. -/
inductive Outcome (α : Type) where
  | ok (value : α)
  | err (message : String)
  | panic (message : String)

/-! ## The program -/

/-- Go `response`: a review for the validation path. -/
def response (uid : String) (allowed : Bool) (code : Int) (message : String) :
    AdmissionReview :=
  { typeMeta := { kind := "AdmissionReview", apiVersion := "admission.k8s.io/v1" }
    request := none
    response := some
      { uid := uid
        allowed := allowed
        result := some { code := code, message := message }
        patchType := none
        patch := none } }

/-- Go `responsePatch`: a review carrying a JSON patch for the mutation
path. -/
def responsePatch (uid : String) (patch : Bytes) : AdmissionReview :=
  let pType := PatchTypeJSONPatch
  { typeMeta := { kind := "AdmissionReview", apiVersion := "admission.k8s.io/v1" }
    request := none
    response := some
      { uid := uid
        allowed := true
        result := none
        patchType := some pType
        patch := some patch } }

/-- Go `extractAdmission`: the review decoded from the request, or an
error. -/
def extractAdmission (env : Env) (r : Request) : Except String AdmissionReview :=
  if r.headerGet "Content-Type" ≠ "application/json" then
    .error ("incorrect content type " ++ env.quote (r.headerGet "Content-Type")
      ++ " - Should be " ++ "application/json")
  else
    let body := r.body
    if body.length = 0 then
      .error "body is empty"
    else
      match env.unmarshalReview body with
      | .error e => .error ("couldn't read the admission review request: " ++ e)
      | .ok adm =>
        if adm.request.isNone then
          .error "admission request is nil"
        else
          .ok adm

/-- Go `checkForPod`: the pod under review, or an error. Reading
`req.Request.Kind` through a nil `Request` pointer panics. -/
def checkForPod (env : Env) (req : AdmissionReview) : Outcome Pod :=
  match req.request with
  | none => .panic "invalid memory address or nil pointer dereference"
  | some rq =>
    if rq.kind.kind ≠ "Pod" then
      .err "only pods are supported"
    else
      match env.unmarshalPod rq.object.raw with
      | .error _ => .err "couldn't read pod"
      | .ok p => .ok p

/-- The common tail of both handlers: set the JSON content type, serialize the
review and write it, or report status 500 when serialization fails. -/
def writeReview (env : Env) (resp : AdmissionReview) : HttpResponse :=
  match env.marshalReview resp with
  | .error _ => .httpError "couldn't marshal admission response" StatusInternalServerError
  | .ok j => .json j

/-- The decision of `ServeValidatePods` (the `if` on `p.Labels["teacher"]`):
the review for request `uid` and pod `p`. -/
def validateReview (uid : String) (p : Pod) : AdmissionReview :=
  if ¬ (mapIndexOk p.labels "teacher").2 then
    response uid false StatusForbidden "pod label is invalid"
  else
    response uid true StatusAccepted "valid pod"

/-- Go `ServeValidatePods`. -/
def ServeValidatePods (env : Env) (r : Request) : HttpResponse :=
  match extractAdmission env r with
  | .error e => .httpError e StatusBadRequest
  | .ok req =>
    match checkForPod env req with
    | .panic m => .panic m
    | .err e => .httpError e StatusBadRequest
    | .ok p =>
      match req.request with
      | none => .panic "invalid memory address or nil pointer dereference"
      | some rq => writeReview env (validateReview rq.uid p)

/-- The correction step of `ServeMutatePods`: the deep copy `pMod` after the
`if` that sets the label `super-teacher`. An error is a run-time panic with
its message. -/
def correctPod (p : Pod) : Except String Pod :=
  let pMod := p.DeepCopy
  if pMod.labels.isNone || mapIndex pMod.labels "super-teacher" != "Drewbernetes" then
    match mapAssign pMod.labels "super-teacher" "Drewbernetes" with
    | .error m => .error m
    | .ok ls => .ok { pMod with labels := ls }
  else
    .ok pMod

/-- Go `ServeMutatePods`. -/
def ServeMutatePods (env : Env) (r : Request) : HttpResponse :=
  match extractAdmission env r with
  | .error e => .httpError e StatusBadRequest
  | .ok req =>
    match checkForPod env req with
    | .panic m => .panic m
    | .err e => .httpError e StatusBadRequest
    | .ok p =>
      match correctPod p with
      | .error m => .panic m
      | .ok pMod =>
        match jsondiffCompare p pMod with
        | .error _ =>
          .httpError "there was an error comparing the mutated pod with the original"
            StatusBadRequest
        | .ok patch =>
          match env.marshalPatch patch with
          | .error _ => .httpError "there was an error marshalling the patch" StatusBadRequest
          | .ok pBytes =>
            match req.request with
            | none => .panic "invalid memory address or nil pointer dereference"
            | some rq => writeReview env (responsePatch rq.uid pBytes)

/-! ## Sample inputs -/

/-- An admission request for an object of the given kind. -/
def sampleRequest (kind : String) : AdmissionRequest :=
  { uid := "uid-1", kind := { group := "", version := "v1", kind := kind }, object := { raw := "pod" } }

/-- A review as sent by the control plane, wrapping `sampleRequest kind`. -/
def sampleReview (kind : String) : AdmissionReview :=
  { typeMeta := { kind := "AdmissionReview", apiVersion := "admission.k8s.io/v1" }
    request := some (sampleRequest kind)
    response := none }

/-- A review whose request section is null. -/
def nullReview : AdmissionReview :=
  { typeMeta := { kind := "AdmissionReview", apiVersion := "admission.k8s.io/v1" }
    request := none
    response := none }

/-- A pod with the given labels, a name and a kind. -/
def samplePod (labels : Option Labels) : Pod :=
  { labels := labels
    metaRest := [("name", Json.str "web")]
    rest := [("kind", Json.str "Pod"), ("spec", Json.obj [("containers", Json.arr [])])] }

/-- Library behaviour for the samples: the body `review` decodes to `rv`, the
body `null-request` to a review without a request, any other body is
malformed; the raw object `pod` decodes to `p`, any other is malformed; both
encoders succeed. -/
def sampleEnv (rv : AdmissionReview) (p : Pod) : Env :=
  { unmarshalReview := fun b =>
      if b = "review" then .ok rv
      else if b = "null-request" then .ok nullReview
      else .error "unexpected end of JSON input"
    unmarshalPod := fun b => if b = "pod" then .ok p else .error "unexpected end of JSON input"
    marshalPatch := fun _ => .ok "patch-bytes"
    marshalReview := fun _ => .ok "review-bytes"
    quote := fun s => "\"" ++ s ++ "\"" }

/-- A request with the given content type and body. -/
def sampleHttp (contentType : String) (body : Bytes) : Request :=
  { header := [("Content-Type", contentType)], body := body }

/-! ## Go maps: lookup, set, erase -/

namespace GoMap

theorem lookup_set_self {α : Type} (k : String) (v : α) (m : Entries α) :
    lookup k (set k v m) = some v := by
  induction m with
  | nil => simp [set, lookup]
  | cons x t ih =>
    obtain ⟨k', v'⟩ := x
    by_cases h : k' = k
    · simp [set, lookup, h]
    · simp [set, lookup, h, ih]

theorem lookup_set_ne {α : Type} (k k' : String) (v : α) (m : Entries α) (h : k' ≠ k) :
    lookup k' (set k v m) = lookup k' m := by
  induction m with
  | nil => simp [set, lookup, Ne.symm h]
  | cons x t ih =>
    obtain ⟨k₁, v₁⟩ := x
    by_cases h₁ : k₁ = k
    · subst h₁
      simp [set, lookup, Ne.symm h]
    · by_cases h₂ : k₁ = k'
      · subst h₂
        simp [set, lookup, h]
      · simp [set, lookup, h₁, h₂, ih]

theorem set_set {α : Type} (k : String) (v v' : α) (m : Entries α) :
    set k v' (set k v m) = set k v' m := by
  induction m with
  | nil => simp [set]
  | cons x t ih =>
    obtain ⟨k₁, v₁⟩ := x
    by_cases h₁ : k₁ = k
    · simp [set, h₁]
    · simp [set, h₁, ih]

theorem lookup_erase_self {α : Type} (k : String) (m : Entries α) :
    lookup k (erase k m) = none := by
  induction m with
  | nil => simp [erase, lookup]
  | cons x t ih =>
    obtain ⟨k₁, v₁⟩ := x
    by_cases h₁ : k₁ = k
    · simp [erase, h₁, ih]
    · simp [erase, lookup, h₁, ih]

theorem lookup_isSome_iff {α : Type} (k : String) (m : Entries α) :
    (lookup k m).isSome = true ↔ ∃ v, (k, v) ∈ m := by
  induction m with
  | nil => simp [lookup]
  | cons x t ih =>
    obtain ⟨k₁, v₁⟩ := x
    by_cases h₁ : k₁ = k
    · subst h₁
      simp [lookup]
    · have h₂ : ¬ k = k₁ := fun h => h₁ h.symm
      simp [lookup, h₁, h₂, ih]

theorem lookup_eq_none_iff {α : Type} (k : String) (m : Entries α) :
    lookup k m = none ↔ k ∉ keys m := by
  induction m with
  | nil => simp [lookup, keys]
  | cons x t ih =>
    obtain ⟨k₁, v₁⟩ := x
    by_cases h₁ : k₁ = k
    · subst h₁
      simp [lookup, keys]
    · have h₂ : ¬ k = k₁ := fun h => h₁ h.symm
      simp only [keys] at ih
      simp [lookup, keys, h₁, h₂, ih]

theorem mem_keys_set {α : Type} (k : String) (v : α) (m : Entries α) :
    k ∈ keys (set k v m) := by
  by_contra h
  have := (lookup_eq_none_iff k (set k v m)).mpr h
  rw [lookup_set_self] at this
  cases this

theorem lookup_map {α β : Type} (f : α → β) (k : String) (m : Entries α) :
    lookup k (m.map fun kv => (kv.1, f kv.2)) = (lookup k m).map f := by
  induction m with
  | nil => simp [lookup]
  | cons x t ih =>
    obtain ⟨k₁, v₁⟩ := x
    by_cases h₁ : k₁ = k
    · simp [lookup, h₁]
    · simp [lookup, h₁, ih]

theorem set_map {α β : Type} (f : α → β) (k : String) (v : α) (m : Entries α) :
    (set k v m).map (fun kv => (kv.1, f kv.2)) = set k (f v) (m.map fun kv => (kv.1, f kv.2)) := by
  induction m with
  | nil => simp [set]
  | cons x t ih =>
    obtain ⟨k₁, v₁⟩ := x
    by_cases h₁ : k₁ = k
    · simp [set, h₁]
    · simp [set, h₁, ih]

theorem set_ne_nil {α : Type} (k : String) (v : α) (m : Entries α) : set k v m ≠ [] := by
  cases m with
  | nil => simp [set]
  | cons x t =>
    obtain ⟨k₁, v₁⟩ := x
    by_cases h₁ : k₁ = k <;> simp [set, h₁]

end GoMap

/-! ## Decoding and kind check -/

theorem extractAdmission_request_isSome (env : Env) (r : Request) (adm : AdmissionReview)
    (h : extractAdmission env r = .ok adm) : ∃ rq, adm.request = some rq := by
  unfold extractAdmission at h
  split at h
  · cases h
  · simp only at h
    split at h
    · cases h
    · split at h
      · cases h
      · split at h
        · cases h
        · rename_i hreq
          cases h
          cases hr : adm.request with
          | none => simp [hr] at hreq
          | some rq => exact ⟨rq, rfl⟩

theorem mapIndexOk_snd_iff (m : Option Labels) (k : String) :
    (mapIndexOk m k).2 = true ↔ ∃ l v, m = some l ∧ (k, v) ∈ l := by
  cases m with
  | none => simp [mapIndexOk]
  | some l =>
    have := GoMap.lookup_isSome_iff k l
    cases hl : GoMap.lookup k l with
    | none =>
      rw [hl] at this
      simp only [mapIndexOk, hl]
      constructor
      · intro h; cases h
      · rintro ⟨l', v, hl', hv⟩
        cases hl'
        exact this.mpr ⟨v, hv⟩
    | some v =>
      rw [hl] at this
      simp only [mapIndexOk, hl]
      constructor
      · intro _
        obtain ⟨w, hw⟩ := this.mp rfl
        exact ⟨l, w, rfl, hw⟩
      · intro _; trivial

/-! ## Validate path -/

/-- C1. Validate path: after successful decoding and extraction of a pod `p`,
`ServeValidatePods` serializes a review that echoes the uid of the request;
when the labels of `p` contain the key `teacher` (with any value) the review
has allowed=true, code 202 and message "valid pod", and when they do not
(nil or empty labels included) it has allowed=false, code 403 and message
"pod label is invalid". -/
theorem ServeValidatePods_decision (env : Env) (r : Request) (req : AdmissionReview) (p : Pod)
    (hx : extractAdmission env r = .ok req) (hp : checkForPod env req = .ok p) :
    ∃ rq, req.request = some rq ∧
      ServeValidatePods env r = writeReview env (validateReview rq.uid p) ∧
      ((∃ l v, p.labels = some l ∧ ("teacher", v) ∈ l) →
        (validateReview rq.uid p).response = some
          { uid := rq.uid, allowed := true,
            result := some { code := 202, message := "valid pod" },
            patchType := none, patch := none }) ∧
      ((¬ ∃ l v, p.labels = some l ∧ ("teacher", v) ∈ l) →
        (validateReview rq.uid p).response = some
          { uid := rq.uid, allowed := false,
            result := some { code := 403, message := "pod label is invalid" },
            patchType := none, patch := none }) ∧
      ((p.labels = none ∨ p.labels = some []) →
        ¬ ∃ l v, p.labels = some l ∧ ("teacher", v) ∈ l) := by
  obtain ⟨rq, hrq⟩ := extractAdmission_request_isSome env r req hx
  refine ⟨rq, hrq, ?_, ?_, ?_, ?_⟩
  rotate_left 3
  · rintro (h | h) ⟨l, v, hl, hv⟩
    · rw [h] at hl; cases hl
    · rw [h] at hl; cases hl; cases hv
  · simp only [ServeValidatePods, hx, hp, hrq]
  · intro h
    have h' := (mapIndexOk_snd_iff p.labels "teacher").mpr h
    simp [validateReview, h', response, StatusAccepted]
  · intro h
    have h' : (mapIndexOk p.labels "teacher").2 = false := by
      cases hb : (mapIndexOk p.labels "teacher").2 with
      | false => rfl
      | true => exact absurd ((mapIndexOk_snd_iff p.labels "teacher").mp hb) h
    simp [validateReview, h', response, StatusForbidden]

/-- Witness for C1: a pod labelled `teacher=x`, decoded from a well-formed
request, is allowed. -/
theorem ServeValidatePods_decision_witness :
    extractAdmission (sampleEnv (sampleReview "Pod") (samplePod (some [("teacher", "x")])))
        (sampleHttp "application/json" "review") = .ok (sampleReview "Pod") ∧
    checkForPod (sampleEnv (sampleReview "Pod") (samplePod (some [("teacher", "x")])))
        (sampleReview "Pod") = .ok (samplePod (some [("teacher", "x")])) ∧
    ServeValidatePods (sampleEnv (sampleReview "Pod") (samplePod (some [("teacher", "x")])))
        (sampleHttp "application/json" "review") = .json "review-bytes" ∧
    (validateReview "uid-1" (samplePod (some [("teacher", "x")]))).response = some
      { uid := "uid-1", allowed := true,
        result := some { code := 202, message := "valid pod" },
        patchType := none, patch := none } := by
  obtain ⟨rq, hrq, hs, hyes, _, _⟩ :=
    ServeValidatePods_decision
      (sampleEnv (sampleReview "Pod") (samplePod (some [("teacher", "x")])))
      (sampleHttp "application/json" "review") (sampleReview "Pod")
      (samplePod (some [("teacher", "x")])) rfl rfl
  cases hrq
  exact ⟨rfl, rfl, by rw [hs]; rfl, hyes ⟨_, "x", rfl, List.mem_cons_self _ _⟩⟩

/-! ## Mutate path: the correction step -/

theorem correctPod_of_labels (p : Pod) (l : Labels) (h : p.labels = some l) :
    correctPod p =
      if GoMap.lookup "super-teacher" l = some "Drewbernetes" then .ok p
      else .ok { p with labels := some (GoMap.set "super-teacher" "Drewbernetes" l) } := by
  cases hl : GoMap.lookup "super-teacher" l with
  | none => simp [correctPod, Pod.DeepCopy, h, mapIndex, mapAssign, hl]
  | some v =>
    by_cases hv : v = "Drewbernetes"
    · subst hv
      simp [correctPod, Pod.DeepCopy, h, mapIndex, mapAssign, hl]
    · simp [correctPod, Pod.DeepCopy, h, mapIndex, mapAssign, hl, hv]

/-- C2 (failing input). For the pod without a labels map the correction step
panics on the write to the nil map, and `ServeMutatePods` ends in that panic
instead of answering with allowed=true and a patch. -/
theorem ServeMutatePods_nil_labels_panics :
    correctPod (samplePod none) = .error "assignment to entry in nil map" ∧
    extractAdmission (sampleEnv (sampleReview "Pod") (samplePod none))
        (sampleHttp "application/json" "review") = .ok (sampleReview "Pod") ∧
    checkForPod (sampleEnv (sampleReview "Pod") (samplePod none)) (sampleReview "Pod")
        = .ok (samplePod none) ∧
    ServeMutatePods (sampleEnv (sampleReview "Pod") (samplePod none))
        (sampleHttp "application/json" "review")
      = .panic "assignment to entry in nil map" :=
  ⟨rfl, rfl, rfl, rfl⟩

/-- C3. Correction postcondition: for a pod whose labels map is present
(possibly empty) the correction step succeeds and the corrected copy maps
`super-teacher` to `Drewbernetes`, whatever the key held before. -/
theorem correctPod_sets_label (p : Pod) (l : Labels) (h : p.labels = some l) :
    ∃ q l', correctPod p = .ok q ∧ q.labels = some l' ∧
      GoMap.lookup "super-teacher" l' = some "Drewbernetes" ∧
      mapIndex q.labels "super-teacher" = "Drewbernetes" := by
  rw [correctPod_of_labels p l h]
  by_cases hl : GoMap.lookup "super-teacher" l = some "Drewbernetes"
  · exact ⟨p, l, by simp [hl], h, hl, by simp [mapIndex, h, hl]⟩
  · refine ⟨{ p with labels := some (GoMap.set "super-teacher" "Drewbernetes" l) },
      GoMap.set "super-teacher" "Drewbernetes" l, by simp [hl], rfl,
      GoMap.lookup_set_self _ _ _, ?_⟩
    simp [mapIndex, GoMap.lookup_set_self]

/-- Witness for C3: a pod whose label `super-teacher` holds another value. -/
theorem correctPod_sets_label_witness :
    (samplePod (some [("app", "web"), ("super-teacher", "nobody")])).labels
        = some [("app", "web"), ("super-teacher", "nobody")] ∧
    ∃ q l', correctPod (samplePod (some [("app", "web"), ("super-teacher", "nobody")])) = .ok q ∧
      q.labels = some l' ∧
      GoMap.lookup "super-teacher" l' = some "Drewbernetes" ∧
      mapIndex q.labels "super-teacher" = "Drewbernetes" :=
  ⟨rfl, correctPod_sets_label _ _ rfl⟩

/-- C4. Correction preserves everything else: for a pod whose labels map is
present, the corrected copy holds, for every label key other than
`super-teacher`, exactly what the original holds (present with the same value,
or absent), and agrees with the original on every field other than the
labels. -/
theorem correctPod_frame (p : Pod) (l : Labels) (h : p.labels = some l) :
    ∃ q l', correctPod p = .ok q ∧ q.labels = some l' ∧
      (∀ k, k ≠ "super-teacher" → GoMap.lookup k l' = GoMap.lookup k l) ∧
      q.metaRest = p.metaRest ∧ q.rest = p.rest := by
  rw [correctPod_of_labels p l h]
  by_cases hl : GoMap.lookup "super-teacher" l = some "Drewbernetes"
  · exact ⟨p, l, by simp [hl], h, fun _ _ => rfl, rfl, rfl⟩
  · exact ⟨{ p with labels := some (GoMap.set "super-teacher" "Drewbernetes" l) },
      GoMap.set "super-teacher" "Drewbernetes" l, by simp [hl], rfl,
      fun k hk => GoMap.lookup_set_ne _ _ _ _ hk, rfl, rfl⟩

/-- Witness for C4: a pod with an unrelated label and no `super-teacher`. -/
theorem correctPod_frame_witness :
    (samplePod (some [("app", "web")])).labels = some [("app", "web")] ∧
    ∃ q l', correctPod (samplePod (some [("app", "web")])) = .ok q ∧ q.labels = some l' ∧
      (∀ k, k ≠ "super-teacher" → GoMap.lookup k l' = GoMap.lookup k [("app", "web")]) ∧
      q.metaRest = (samplePod (some [("app", "web")])).metaRest ∧
      q.rest = (samplePod (some [("app", "web")])).rest :=
  ⟨rfl, correctPod_frame _ _ rfl⟩

/-- C5. Correction is idempotent: for a pod whose labels map is present, the
correction step succeeds, and applied to its own result it returns that
result unchanged. -/
theorem correctPod_idempotent (p : Pod) (l : Labels) (h : p.labels = some l) :
    ∃ q, correctPod p = .ok q ∧ correctPod q = .ok q := by
  rw [correctPod_of_labels p l h]
  by_cases hl : GoMap.lookup "super-teacher" l = some "Drewbernetes"
  · refine ⟨p, by simp [hl], ?_⟩
    rw [correctPod_of_labels p l h]
    simp [hl]
  · refine ⟨{ p with labels := some (GoMap.set "super-teacher" "Drewbernetes" l) },
      by simp [hl], ?_⟩
    rw [correctPod_of_labels _ (GoMap.set "super-teacher" "Drewbernetes" l) rfl]
    simp [GoMap.lookup_set_self]

/-- Witness for C5: a pod with an empty, non-nil labels map. -/
theorem correctPod_idempotent_witness :
    (samplePod (some [])).labels = some [] ∧
    ∃ q, correctPod (samplePod (some [])) = .ok q ∧ correctPod q = .ok q :=
  ⟨rfl, correctPod_idempotent _ _ rfl⟩

/-! ## Decoding rejections and the kind check -/

/-- C8. Decoding rejections: `extractAdmission` returns an error and no review
when the Content-Type header differs from `application/json` (whatever the
body), when the body has zero length (message "body is empty" once the
content type is accepted), when the body does not parse as a review, and
when the parsed review has a null request (message "admission request is
nil" once the earlier checks pass); a returned review always has a request. -/
theorem extractAdmission_rejections (env : Env) (r : Request) :
    (r.headerGet "Content-Type" ≠ "application/json" →
      extractAdmission env r = .error ("incorrect content type "
        ++ env.quote (r.headerGet "Content-Type") ++ " - Should be " ++ "application/json")) ∧
    (r.body.length = 0 → ∃ msg, extractAdmission env r = .error msg) ∧
    (r.headerGet "Content-Type" = "application/json" → r.body.length = 0 →
      extractAdmission env r = .error "body is empty") ∧
    (∀ e, env.unmarshalReview r.body = .error e → ∃ msg, extractAdmission env r = .error msg) ∧
    (∀ adm, env.unmarshalReview r.body = .ok adm → adm.request = none →
      ∃ msg, extractAdmission env r = .error msg) ∧
    (∀ adm, r.headerGet "Content-Type" = "application/json" → r.body.length ≠ 0 →
      env.unmarshalReview r.body = .ok adm → adm.request = none →
      extractAdmission env r = .error "admission request is nil") ∧
    (∀ adm, extractAdmission env r = .ok adm → ∃ rq, adm.request = some rq) := by
  refine ⟨?_, ?_, ?_, ?_, ?_, ?_, ?_⟩
  · intro h
    simp [extractAdmission, h]
  · intro h
    by_cases hc : r.headerGet "Content-Type" = "application/json"
    · exact ⟨_, by simp [extractAdmission, hc, h]; rfl⟩
    · exact ⟨_, by simp [extractAdmission, hc]; rfl⟩
  · intro hc h
    simp [extractAdmission, hc, h]
  · intro e he
    by_cases hc : r.headerGet "Content-Type" = "application/json"
    · by_cases hb : r.body.length = 0
      · exact ⟨_, by simp [extractAdmission, hc, hb]; rfl⟩
      · exact ⟨_, by simp [extractAdmission, hc, hb, he]; rfl⟩
    · exact ⟨_, by simp [extractAdmission, hc]; rfl⟩
  · intro adm ha hn
    by_cases hc : r.headerGet "Content-Type" = "application/json"
    · by_cases hb : r.body.length = 0
      · exact ⟨_, by simp [extractAdmission, hc, hb]; rfl⟩
      · exact ⟨_, by simp [extractAdmission, hc, hb, ha, hn]; rfl⟩
    · exact ⟨_, by simp [extractAdmission, hc]; rfl⟩
  · intro adm hc hb ha hn
    simp [extractAdmission, hc, hb, ha, hn]
  · intro adm h
    exact extractAdmission_request_isSome env r adm h

/-- C9. Kind check: for a decoded review with request `rq`, `checkForPod`
returns the error "only pods are supported" when the kind is not `Pod`,
whatever the raw object; for kind `Pod` it returns the error "couldn't read
pod" when the raw object does not deserialize, and the deserialized pod
otherwise. -/
theorem checkForPod_cases (env : Env) (req : AdmissionReview) (rq : AdmissionRequest)
    (h : req.request = some rq) :
    (rq.kind.kind ≠ "Pod" → checkForPod env req = .err "only pods are supported") ∧
    (rq.kind.kind = "Pod" → ∀ e, env.unmarshalPod rq.object.raw = .error e →
      checkForPod env req = .err "couldn't read pod") ∧
    (rq.kind.kind = "Pod" → ∀ p, env.unmarshalPod rq.object.raw = .ok p →
      checkForPod env req = .ok p) := by
  refine ⟨?_, ?_, ?_⟩
  · intro hk
    simp [checkForPod, h, hk]
  · intro hk e he
    simp [checkForPod, h, hk, he]
  · intro hk p hp
    simp [checkForPod, h, hk, hp]

/-- Witness for C9: a review for a Deployment is rejected by its kind. -/
theorem checkForPod_cases_witness :
    (sampleReview "Deployment").request = some (sampleRequest "Deployment") ∧
    checkForPod (sampleEnv (sampleReview "Deployment") (samplePod none))
      (sampleReview "Deployment") = .err "only pods are supported" :=
  ⟨rfl, (checkForPod_cases (sampleEnv (sampleReview "Deployment") (samplePod none))
    (sampleReview "Deployment") (sampleRequest "Deployment") rfl).1 (by decide)⟩

/-! ## Transport status -/

/-- C10. Transport status mapping: in both handlers an error of
`extractAdmission` or of `checkForPod` is answered by `http.Error` with status
400 and the message of that error, and no review is written; when both
succeed on the validate path and the review serializes to `j`, the handler
writes `j` as JSON with status 200, the review is a complete envelope, and a
denial shows only as code 403 inside it. -/
theorem handlers_status (env : Env) (r : Request) :
    (∀ e, extractAdmission env r = .error e →
      ServeValidatePods env r = .httpError e 400 ∧ ServeMutatePods env r = .httpError e 400 ∧
      (ServeValidatePods env r).statusCode = some 400 ∧
      (ServeMutatePods env r).statusCode = some 400) ∧
    (∀ req e, extractAdmission env r = .ok req → checkForPod env req = .err e →
      ServeValidatePods env r = .httpError e 400 ∧ ServeMutatePods env r = .httpError e 400 ∧
      (ServeValidatePods env r).statusCode = some 400 ∧
      (ServeMutatePods env r).statusCode = some 400) ∧
    (∀ req p, extractAdmission env r = .ok req → checkForPod env req = .ok p →
      ∃ rq resp, req.request = some rq ∧ resp = validateReview rq.uid p ∧
        resp.typeMeta = { kind := "AdmissionReview", apiVersion := "admission.k8s.io/v1" } ∧
        (∃ allowed st, resp.response = some
          { uid := rq.uid, allowed := allowed, result := some st,
            patchType := none, patch := none } ∧
          (allowed = false → st.code = 403)) ∧
        (∀ j, env.marshalReview resp = .ok j →
          ServeValidatePods env r = .json j ∧
          (ServeValidatePods env r).statusCode = some 200)) := by
  refine ⟨?_, ?_, ?_⟩
  · intro e he
    simp [ServeValidatePods, ServeMutatePods, he, HttpResponse.statusCode, StatusBadRequest]
  · intro req e hx hp
    simp [ServeValidatePods, ServeMutatePods, hx, hp, HttpResponse.statusCode, StatusBadRequest]
  · intro req p hx hp
    obtain ⟨rq, hrq⟩ := extractAdmission_request_isSome env r req hx
    refine ⟨rq, _, hrq, rfl, ?_, ?_, ?_⟩
    · unfold validateReview
      split <;> rfl
    · unfold validateReview
      split
      · exact ⟨false, _, rfl, fun _ => rfl⟩
      · exact ⟨true, _, rfl, fun h => by cases h⟩
    · intro j hj
      simp [ServeValidatePods, hx, hp, hrq, writeReview, hj, HttpResponse.statusCode]

/-- Witness for C8: one request for each rejection. -/
theorem extractAdmission_rejections_witness :
    extractAdmission (sampleEnv (sampleReview "Pod") (samplePod none))
        (sampleHttp "text/plain" "review")
      = .error ("incorrect content type " ++ "\"text/plain\"" ++ " - Should be "
          ++ "application/json") ∧
    extractAdmission (sampleEnv (sampleReview "Pod") (samplePod none))
        (sampleHttp "application/json" "") = .error "body is empty" ∧
    (∃ msg, extractAdmission (sampleEnv (sampleReview "Pod") (samplePod none))
        (sampleHttp "application/json" "garbage") = .error msg) ∧
    extractAdmission (sampleEnv (sampleReview "Pod") (samplePod none))
        (sampleHttp "application/json" "null-request") = .error "admission request is nil" :=
  ⟨(extractAdmission_rejections _ (sampleHttp "text/plain" "review")).1 (by decide),
   (extractAdmission_rejections _ (sampleHttp "application/json" "")).2.2.1 rfl rfl,
   (extractAdmission_rejections (sampleEnv (sampleReview "Pod") (samplePod none))
      (sampleHttp "application/json" "garbage")).2.2.2.1 "unexpected end of JSON input" rfl,
   (extractAdmission_rejections (sampleEnv (sampleReview "Pod") (samplePod none))
      (sampleHttp "application/json" "null-request")).2.2.2.2.2.1 nullReview rfl (by decide)
      rfl rfl⟩

/-- Witness for C10: a `text/plain` request gets status 400 from both
handlers, and a denied pod still gets status 200. -/
theorem handlers_status_witness :
    (ServeValidatePods (sampleEnv (sampleReview "Pod") (samplePod (some [])))
        (sampleHttp "text/plain" "review")).statusCode = some 400 ∧
    (ServeMutatePods (sampleEnv (sampleReview "Pod") (samplePod (some [])))
        (sampleHttp "text/plain" "review")).statusCode = some 400 ∧
    (∃ rq resp, (sampleReview "Pod").request = some rq ∧
        resp = validateReview rq.uid (samplePod (some [])) ∧
        resp.typeMeta = { kind := "AdmissionReview", apiVersion := "admission.k8s.io/v1" } ∧
        (∃ allowed st, resp.response = some
          { uid := rq.uid, allowed := allowed, result := some st,
            patchType := none, patch := none } ∧
          (allowed = false → st.code = 403)) ∧
        (∀ j, (sampleEnv (sampleReview "Pod") (samplePod (some []))).marshalReview resp = .ok j →
          ServeValidatePods (sampleEnv (sampleReview "Pod") (samplePod (some [])))
              (sampleHttp "application/json" "review") = .json j ∧
          (ServeValidatePods (sampleEnv (sampleReview "Pod") (samplePod (some [])))
              (sampleHttp "application/json" "review")).statusCode = some 200)) :=
  ⟨((handlers_status (sampleEnv (sampleReview "Pod") (samplePod (some [])))
      (sampleHttp "text/plain" "review")).1 _ rfl).2.2.1,
   ((handlers_status (sampleEnv (sampleReview "Pod") (samplePod (some [])))
      (sampleHttp "text/plain" "review")).1 _ rfl).2.2.2,
   (handlers_status (sampleEnv (sampleReview "Pod") (samplePod (some [])))
      (sampleHttp "application/json" "review")).2.2 (sampleReview "Pod") (samplePod (some []))
      rfl rfl⟩

/-! ## JSON: deep equality, diff and patch application -/

mutual
theorem Json.beq_refl : ∀ a : Json, Json.beq a a = true
  | .null => by simp [Json.beq]
  | .bool _ => by simp [Json.beq]
  | .num _ => by simp [Json.beq]
  | .str _ => by simp [Json.beq]
  | .arr l => by simp [Json.beq, Json.beqItems_refl l]
  | .obj m => by simp [Json.beq, Json.beqFields_refl m]
theorem Json.beqItems_refl : ∀ l : List Json, Json.beqItems l l = true
  | [] => by simp [Json.beqItems]
  | a :: t => by simp [Json.beqItems, Json.beq_refl a, Json.beqItems_refl t]
theorem Json.beqFields_refl : ∀ m : List (String × Json), Json.beqFields m m = true
  | [] => by simp [Json.beqFields]
  | (_, a) :: t => by simp [Json.beqFields, Json.beq_refl a, Json.beqFields_refl t]
end

theorem Json.diff_of_beq (ptr : List String) (a b : Json) (h : Json.beq a b = true) :
    Json.diff ptr a b = [] := by
  unfold Json.diff
  simp [h]

theorem Json.diff_self (ptr : List String) (a : Json) : Json.diff ptr a a = [] :=
  Json.diff_of_beq ptr a a (Json.beq_refl a)

theorem Json.diff_str_ne (ptr : List String) (s t : String) (h : s ≠ t) :
    Json.diff ptr (.str s) (.str t) = [⟨.replace, ptr, some (.str t)⟩] := by
  unfold Json.diff
  simp [Json.beq, h]

theorem foldr_append_single {α β : Type} (f : α → List β) (x : α) :
    ∀ l : List α, l.Nodup → x ∈ l → (∀ y ∈ l, y ≠ x → f y = []) →
      l.foldr (fun k acc => f k ++ acc) [] = f x := by
  intro l
  induction l with
  | nil => intro _ hx; cases hx
  | cons a t ih =>
    intro hnd hx hf
    rw [List.nodup_cons] at hnd
    by_cases hax : a = x
    · subst hax
      have ht : t.foldr (fun k acc => f k ++ acc) [] = [] := by
        have : ∀ s : List α, (∀ y ∈ s, f y = []) → s.foldr (fun k acc => f k ++ acc) [] = [] := by
          intro s
          induction s with
          | nil => intro _; rfl
          | cons b u ihu =>
            intro hs
            simp [hs b (List.mem_cons_self _ _), ihu (fun y hy => hs y (List.mem_cons_of_mem _ hy))]
        apply this
        intro y hy
        apply hf y (List.mem_cons_of_mem _ hy)
        rintro rfl
        exact hnd.1 hy
      simp [ht]
    · have hxt : x ∈ t := by
        rcases List.mem_cons.mp hx with h | h
        · exact absurd h.symm hax
        · exact h
      simp [hf a (List.mem_cons_self _ _) hax,
        ih hnd.2 hxt (fun y hy => hf y (List.mem_cons_of_mem _ hy))]

theorem Json.beqFields_set {k : String} {w : Json} :
    ∀ m : List (String × Json), Json.beqFields m (GoMap.set k w m) = true →
      ∃ v, GoMap.lookup k m = some v ∧ Json.beq v w = true := by
  intro m
  induction m with
  | nil => intro h; simp [GoMap.set, Json.beqFields] at h
  | cons x t ih =>
    obtain ⟨k₁, v₁⟩ := x
    intro h
    by_cases h₁ : k₁ = k
    · simp [GoMap.set, h₁, Json.beqFields] at h
      exact ⟨v₁, by simp [GoMap.lookup, h₁], h.1⟩
    · simp [GoMap.set, h₁, Json.beqFields] at h
      obtain ⟨v, hv, hb⟩ := ih h.2
      exact ⟨v, by simp [GoMap.lookup, h₁, hv], hb⟩

theorem Json.diff_set (ptr : List String) (m : List (String × Json)) (k : String) (w : Json) :
    Json.diff ptr (.obj m) (.obj (GoMap.set k w m)) =
      match GoMap.lookup k m with
      | some v => Json.diff (ptr ++ [k]) v w
      | none => [⟨.add, ptr ++ [k], some w⟩] := by
  by_cases hb : Json.beq (.obj m) (.obj (GoMap.set k w m)) = true
  · rw [Json.diff_of_beq _ _ _ hb]
    simp only [Json.beq] at hb
    obtain ⟨v, hv, hvw⟩ := Json.beqFields_set m hb
    simp [hv, Json.diff_of_beq _ _ _ hvw]
  · rw [Json.diff]
    simp only [hb]
    simp only [Bool.false_eq_true, if_false]
    have hmem : k ∈ Json.unionKeys m (GoMap.set k w m) := by
      simp only [Json.unionKeys, List.mem_dedup, List.mem_append]
      exact Or.inr (GoMap.mem_keys_set k w m)
    have hnd : (Json.unionKeys m (GoMap.set k w m)).Nodup := List.nodup_dedup _
    rw [foldr_append_single _ k _ hnd hmem]
    · rw [GoMap.lookup_set_self]
      cases GoMap.lookup k m <;> rfl
    · intro y _ hy
      rw [GoMap.lookup_set_ne k y w m hy]
      cases hl : GoMap.lookup y m with
      | none => rfl
      | some v => simp [Json.diff_self]

theorem Json.addAt_single_obj (k : String) (v : Json) (m : List (String × Json)) :
    Json.addAt [k] v (.obj m) = some (.obj (GoMap.set k v m)) := by
  simp [Json.addAt, Json.addMember]

theorem Json.addAt_cons_obj (k k₂ : String) (ks : List String) (v c : Json)
    (m : List (String × Json)) (h : GoMap.lookup k m = some c) :
    Json.addAt (k :: k₂ :: ks) v (.obj m) =
      (Json.addAt (k₂ :: ks) v c).bind fun c' => some (.obj (GoMap.set k c' m)) := by
  rw [Json.addAt]
  simp [Json.child, Json.setChild, h]

theorem Json.replaceAt_cons_obj (k : String) (ks : List String) (v c : Json)
    (m : List (String × Json)) (h : GoMap.lookup k m = some c) :
    Json.replaceAt (k :: ks) v (.obj m) =
      (Json.replaceAt ks v c).bind fun c' => some (.obj (GoMap.set k c' m)) := by
  rw [Json.replaceAt]
  simp [Json.child, Json.setChild, h]

theorem Pod.metaFields_of_ne_nil (p : Pod) (l : Labels) (h : p.labels = some l) (hl : l ≠ []) :
    p.metaFields =
      GoMap.set "labels" (Json.obj (labelsJson l)) (GoMap.erase "labels" p.metaRest) := by
  cases l with
  | nil => exact absurd rfl hl
  | cons kv t => simp [Pod.metaFields, h]

theorem Pod.metaFields_of_nil (p : Pod) (h : p.labels = some []) :
    p.metaFields = GoMap.erase "labels" p.metaRest := by
  simp [Pod.metaFields, h]

theorem labelsJson_set (k v : String) (l : Labels) :
    labelsJson (GoMap.set k v l) = GoMap.set k (Json.str v) (labelsJson l) :=
  GoMap.set_map Json.str k v l

theorem lookup_labelsJson (k : String) (l : Labels) :
    GoMap.lookup k (labelsJson l) = (GoMap.lookup k l).map Json.str :=
  GoMap.lookup_map Json.str k l

/-- The patch computed for a corrected pod, case by case, and its effect. -/
theorem patch_of_correction (p : Pod) (l : Labels) (h : p.labels = some l)
    (hne : GoMap.lookup "super-teacher" l ≠ some "Drewbernetes") :
    let q : Pod := { p with labels := some (GoMap.set "super-teacher" "Drewbernetes" l) }
    Json.diff [] p.toJson q.toJson =
      (match l, GoMap.lookup "super-teacher" l with
        | [], _ => [⟨.add, ["metadata", "labels"],
            some (Json.obj [("super-teacher", Json.str "Drewbernetes")])⟩]
        | _ :: _, none => [⟨.add, ["metadata", "labels", "super-teacher"],
            some (Json.str "Drewbernetes")⟩]
        | _ :: _, some _ => [⟨.replace, ["metadata", "labels", "super-teacher"],
            some (Json.str "Drewbernetes")⟩]) ∧
    Json.applyPatch (Json.diff [] p.toJson q.toJson) p.toJson = some q.toJson := by
  intro q
  have hq : q.metaFields = GoMap.set "labels"
      (Json.obj (labelsJson (GoMap.set "super-teacher" "Drewbernetes" l)))
      (GoMap.erase "labels" p.metaRest) :=
    Pod.metaFields_of_ne_nil q _ rfl (GoMap.set_ne_nil _ _ _)
  have htop : q.toJson = Json.obj (GoMap.set "metadata" (Json.obj q.metaFields)
      (GoMap.set "metadata" (Json.obj p.metaFields) p.rest)) := by
    rw [GoMap.set_set]; rfl
  have hd : Json.diff [] p.toJson q.toJson
      = Json.diff ["metadata"] (Json.obj p.metaFields) (Json.obj q.metaFields) := by
    rw [htop]
    simp only [Pod.toJson]
    rw [Json.diff_set, GoMap.lookup_set_self]
    rfl
  cases l with
  | nil =>
    have hp := Pod.metaFields_of_nil p h
    have hd2 : Json.diff [] p.toJson q.toJson = [⟨.add, ["metadata", "labels"],
        some (Json.obj [("super-teacher", Json.str "Drewbernetes")])⟩] := by
      rw [hd, hq, hp, Json.diff_set, GoMap.lookup_erase_self]
      rfl
    refine ⟨hd2, ?_⟩
    rw [hd2]
    simp only [Json.applyPatch, Json.applyOp, Pod.toJson]
    rw [Json.addAt_cons_obj _ _ _ _ _ _ (GoMap.lookup_set_self _ _ _), Json.addAt_single_obj]
    simp only [Option.bind, GoMap.set_set, hp, hq]
    rfl
  | cons kv t =>
    have hp := Pod.metaFields_of_ne_nil p (kv :: t) h (List.cons_ne_nil _ _)
    have hq2 : q.metaFields = GoMap.set "labels"
        (Json.obj (GoMap.set "super-teacher" (Json.str "Drewbernetes") (labelsJson (kv :: t))))
        p.metaFields := by
      rw [hq, hp, GoMap.set_set, labelsJson_set]
    have hd2 : Json.diff [] p.toJson q.toJson =
        match GoMap.lookup "super-teacher" (labelsJson (kv :: t)) with
        | some v => Json.diff ["metadata", "labels", "super-teacher"] v (Json.str "Drewbernetes")
        | none => [⟨.add, ["metadata", "labels", "super-teacher"],
            some (Json.str "Drewbernetes")⟩] := by
      rw [hd, hq2]
      rw [Json.diff_set]
      rw [hp, GoMap.lookup_set_self]
      simp only []
      rw [Json.diff_set]
      rfl
    rw [lookup_labelsJson] at hd2
    cases hl : GoMap.lookup "super-teacher" (kv :: t) with
    | none =>
      rw [hl] at hd2
      simp only [Option.map] at hd2
      refine ⟨hd2, ?_⟩
      rw [hd2]
      simp only [Json.applyPatch, Json.applyOp, Pod.toJson]
      rw [Json.addAt_cons_obj _ _ _ _ _ _ (GoMap.lookup_set_self _ _ _)]
      rw [hp, Json.addAt_cons_obj _ _ _ _ _ _ (GoMap.lookup_set_self _ _ _),
        Json.addAt_single_obj]
      simp only [Option.bind, GoMap.set_set, hq, hp, labelsJson_set]
    | some v =>
      rw [hl] at hd2 hne
      have hv : v ≠ "Drewbernetes" := fun hv => hne (by rw [hv])
      simp only [Option.map] at hd2
      rw [Json.diff_str_ne _ _ _ hv] at hd2
      refine ⟨hd2, ?_⟩
      rw [hd2]
      simp only [Json.applyPatch, Json.applyOp, Pod.toJson]
      rw [Json.replaceAt_cons_obj _ _ _ _ _ (GoMap.lookup_set_self _ _ _)]
      rw [hp, Json.replaceAt_cons_obj _ _ _ _ _ (GoMap.lookup_set_self _ _ _)]
      have hst : GoMap.lookup "super-teacher" (labelsJson (kv :: t)) = some (Json.str v) := by
        rw [lookup_labelsJson, hl]; rfl
      rw [Json.replaceAt_cons_obj _ _ _ _ _ hst]
      simp only [Json.replaceAt, Option.bind, GoMap.set_set, hq, hp, labelsJson_set]

/-! ## Mutate path: the handler and its patch -/

theorem ServeMutatePods_of_corrected (env : Env) (r : Request) (req : AdmissionReview)
    (p q : Pod) (hx : extractAdmission env r = .ok req) (hp : checkForPod env req = .ok p)
    (hc : correctPod p = .ok q) :
    ∃ rq, req.request = some rq ∧
      ServeMutatePods env r =
        match env.marshalPatch (Json.diff [] p.toJson q.toJson) with
        | .error _ => .httpError "there was an error marshalling the patch" StatusBadRequest
        | .ok pBytes => writeReview env (responsePatch rq.uid pBytes) := by
  obtain ⟨rq, hrq⟩ := extractAdmission_request_isSome env r req hx
  refine ⟨rq, hrq, ?_⟩
  simp only [ServeMutatePods, hx, hp, hc, jsondiffCompare, hrq]

/-- C6. Patch round trip: for a pod `p` whose labels map is present, the
correction step gives a pod `q`, the diff of `p` against `q` gives a patch,
and applying that patch to the serialized `p` with RFC 6902 semantics yields
the serialized `q`; this patch is the one `ServeMutatePods` serializes into
its response. -/
theorem patch_round_trip (p : Pod) (l : Labels) (h : p.labels = some l) :
    ∃ q patch, correctPod p = .ok q ∧ jsondiffCompare p q = .ok patch ∧
      Json.applyPatch patch p.toJson = some q.toJson ∧
      ∀ env r req pBytes, extractAdmission env r = .ok req → checkForPod env req = .ok p →
        env.marshalPatch patch = .ok pBytes →
        ∃ rq, req.request = some rq ∧
          ServeMutatePods env r = writeReview env (responsePatch rq.uid pBytes) := by
  have hc := correctPod_of_labels p l h
  by_cases hl : GoMap.lookup "super-teacher" l = some "Drewbernetes"
  · rw [if_pos hl] at hc
    refine ⟨p, [], hc, ?_, rfl, ?_⟩
    · simp [jsondiffCompare, Json.diff_self]
    · intro env r req pBytes hx hp hm
      obtain ⟨rq, hrq, hs⟩ := ServeMutatePods_of_corrected env r req p p hx hp hc
      rw [Json.diff_self] at hs
      exact ⟨rq, hrq, by rw [hs, hm]⟩
  · rw [if_neg hl] at hc
    refine ⟨_, _, hc, rfl, (patch_of_correction p l h hl).2, ?_⟩
    intro env r req pBytes hx hp hm
    obtain ⟨rq, hrq, hs⟩ := ServeMutatePods_of_corrected env r req p _ hx hp hc
    exact ⟨rq, hrq, by rw [hs, hm]⟩

/-- Witness for C6: a pod with an unrelated label and no `super-teacher`,
decoded from a well-formed request. -/
theorem patch_round_trip_witness :
    (samplePod (some [("app", "web")])).labels = some [("app", "web")] ∧
    (∃ q patch, correctPod (samplePod (some [("app", "web")])) = .ok q ∧
      jsondiffCompare (samplePod (some [("app", "web")])) q = .ok patch ∧
      Json.applyPatch patch (samplePod (some [("app", "web")])).toJson = some q.toJson) ∧
    ServeMutatePods (sampleEnv (sampleReview "Pod") (samplePod (some [("app", "web")])))
      (sampleHttp "application/json" "review") = .json "review-bytes" := by
  obtain ⟨q, patch, hc, hd, ha, hh⟩ :=
    patch_round_trip (samplePod (some [("app", "web")])) [("app", "web")] rfl
  refine ⟨rfl, ⟨q, patch, hc, hd, ha⟩, ?_⟩
  obtain ⟨rq, _, hs⟩ :=
    hh (sampleEnv (sampleReview "Pod") (samplePod (some [("app", "web")])))
      (sampleHttp "application/json" "review") (sampleReview "Pod") "patch-bytes" rfl rfl rfl
  rw [hs]
  rfl

/-- The patches of three sample pods: an empty labels map gets the whole
`labels` member added, a map without the key gets the member
`super-teacher` added, a map holding another value gets it replaced. -/
theorem jsondiffCompare_samples :
    jsondiffCompare (samplePod (some []))
        (samplePod (some [("super-teacher", "Drewbernetes")]))
      = .ok [⟨.add, ["metadata", "labels"],
          some (Json.obj [("super-teacher", Json.str "Drewbernetes")])⟩] ∧
    jsondiffCompare (samplePod (some [("app", "web")]))
        (samplePod (some [("app", "web"), ("super-teacher", "Drewbernetes")]))
      = .ok [⟨.add, ["metadata", "labels", "super-teacher"],
          some (Json.str "Drewbernetes")⟩] ∧
    jsondiffCompare (samplePod (some [("super-teacher", "nobody")]))
        (samplePod (some [("super-teacher", "Drewbernetes")]))
      = .ok [⟨.replace, ["metadata", "labels", "super-teacher"],
          some (Json.str "Drewbernetes")⟩] := by
  refine ⟨?_, ?_, ?_⟩
  · exact congrArg Except.ok (patch_of_correction (samplePod (some [])) [] rfl (by decide)).1
  · exact congrArg Except.ok
      (patch_of_correction (samplePod (some [("app", "web")])) [("app", "web")] rfl
        (by decide)).1
  · exact congrArg Except.ok
      (patch_of_correction (samplePod (some [("super-teacher", "nobody")]))
        [("super-teacher", "nobody")] rfl (by decide)).1

/-- C7. No-op mutation: for a pod whose labels already map `super-teacher` to
`Drewbernetes`, the corrected copy equals the original, the computed patch
is the empty operation sequence, and `ServeMutatePods` goes on to build a
review that echoes the uid of the request with allowed=true and the
serialized empty patch, which it writes with status 200. -/
theorem ServeMutatePods_noop (p : Pod) (l : Labels) (h : p.labels = some l)
    (hl : GoMap.lookup "super-teacher" l = some "Drewbernetes") :
    correctPod p = .ok p ∧ jsondiffCompare p p = .ok [] ∧
    ∀ env r req pBytes, extractAdmission env r = .ok req → checkForPod env req = .ok p →
      env.marshalPatch [] = .ok pBytes →
      ∃ rq, req.request = some rq ∧
        ServeMutatePods env r = writeReview env (responsePatch rq.uid pBytes) ∧
        (responsePatch rq.uid pBytes).response = some
          { uid := rq.uid, allowed := true, result := none,
            patchType := some "JSONPatch", patch := some pBytes } ∧
        ∀ j, env.marshalReview (responsePatch rq.uid pBytes) = .ok j →
          ServeMutatePods env r = .json j ∧ (ServeMutatePods env r).statusCode = some 200 := by
  have hc : correctPod p = .ok p := by
    rw [correctPod_of_labels p l h, if_pos hl]
  refine ⟨hc, by simp [jsondiffCompare, Json.diff_self], ?_⟩
  intro env r req pBytes hx hp hm
  obtain ⟨rq, hrq, hs⟩ := ServeMutatePods_of_corrected env r req p p hx hp hc
  rw [Json.diff_self, hm] at hs
  refine ⟨rq, hrq, hs, rfl, ?_⟩
  intro j hj
  rw [hs]
  simp [writeReview, hj, HttpResponse.statusCode]

/-- Witness for C7: the pod labelled `super-teacher=Drewbernetes`, decoded
from a well-formed request. -/
theorem ServeMutatePods_noop_witness :
    (samplePod (some [("super-teacher", "Drewbernetes")])).labels
        = some [("super-teacher", "Drewbernetes")] ∧
    GoMap.lookup "super-teacher" [("super-teacher", "Drewbernetes")] = some "Drewbernetes" ∧
    ServeMutatePods
        (sampleEnv (sampleReview "Pod") (samplePod (some [("super-teacher", "Drewbernetes")])))
        (sampleHttp "application/json" "review") = .json "review-bytes" :=
  ⟨rfl, rfl,
    by
      obtain ⟨_, _, _, _, hj⟩ :=
        (ServeMutatePods_noop (samplePod (some [("super-teacher", "Drewbernetes")]))
          [("super-teacher", "Drewbernetes")] rfl rfl).2.2
          (sampleEnv (sampleReview "Pod") (samplePod (some [("super-teacher", "Drewbernetes")])))
          (sampleHttp "application/json" "review") (sampleReview "Pod") "patch-bytes"
          rfl rfl rfl
      exact (hj "review-bytes" rfl).1⟩
